import Mathlib

/-!
Verification development for the PN532 NFC reader (`nfc_reader_ha_events.py`,
`nfc_reader_service.py`).  The Python functions are shallowly embedded as
executable Lean functions:

* Python byte sequences are `List Nat` (each element a byte value);
* Python strings are `PyStr := List Nat` (a sequence of Unicode code points);
* fallible functions return `Option`;
* the serial device is modelled, where control flow over it matters, as a
  trace `Dev := List (Option (List Nat))`: the successive results of the
  `_read_tag_data` exchanges, consumed one element per call.
-/

/-- A Python string, as its sequence of Unicode code points. -/
abbrev PyStr := List Nat

/-- Convenience: the code points of a Lean string literal, for stating
concrete Python-string values. -/
def sList (s : String) : PyStr := s.toList.map Char.toNat

/-- The six ASCII characters stripped by Python's `str.strip()`.
(Python also strips further Unicode whitespace; no input in this
development contains any.) -/
def pySpace (c : Nat) : Bool :=
  c = 32 || c = 9 || c = 10 || c = 13 || c = 11 || c = 12

/-- Python `s.strip()` on ASCII-whitespace inputs. -/
def pyStrip (s : PyStr) : PyStr :=
  ((s.dropWhile pySpace).reverse.dropWhile pySpace).reverse

/-- `seqStartsWith pre s` holds when `pre` is an initial segment of `s`. -/
def seqStartsWith : PyStr → PyStr → Bool
  | [], _ => true
  | _ :: _, [] => false
  | a :: as, b :: bs => a = b && seqStartsWith as bs

/-- Python `sub in s` (substring containment) for a fixed separator. -/
def containsSub (sep : PyStr) : PyStr → Bool
  | [] => seqStartsWith sep []
  | c :: rest => seqStartsWith sep (c :: rest) || containsSub sep rest

/-- Fuel-driven worker for Python `s.split(sep)` with a non-empty
separator: greedy left-to-right non-overlapping cuts.  The fuel is always
at least the length of the remaining input, so the fuel-exhausted branch
is unreachable on the arguments `pySplit` supplies. -/
def splitListAux (sep : PyStr) : Nat → PyStr → PyStr → List PyStr
  | 0, s, acc => [acc.reverse ++ s]
  | fuel + 1, s, acc =>
    match s with
    | [] => [acc.reverse]
    | c :: rest =>
      if seqStartsWith sep s then
        acc.reverse :: splitListAux sep fuel (s.drop sep.length) []
      else
        splitListAux sep fuel rest (c :: acc)

/-- Python `s.split(sep)` for non-empty `sep`. -/
def pySplit (sep s : PyStr) : List PyStr :=
  splitListAux sep (s.length + 1) s []

/-- Fuel-driven UTF-8 decoder matching `bytes.decode('utf-8',
errors='ignore')`: valid sequences decode to their code point, invalid or
truncated bytes are skipped.  The fuel is always at least the input
length, so the fuel-exhausted branch is unreachable from
`decodeUtf8Ignore`. -/
def utf8Go : Nat → List Nat → List Nat
  | 0, _ => []
  | _, [] => []
  | fuel + 1, b :: rest =>
    if b < 0x80 then
      b :: utf8Go fuel rest
    else if 0xC2 ≤ b && b ≤ 0xDF then
      match rest with
      | c1 :: rest1 =>
        if 0x80 ≤ c1 && c1 ≤ 0xBF then
          ((b - 0xC0) * 0x40 + (c1 - 0x80)) :: utf8Go fuel rest1
        else utf8Go fuel rest
      | [] => []
    else if 0xE0 ≤ b && b ≤ 0xEF then
      match rest with
      | c1 :: c2 :: rest2 =>
        if (if b = 0xE0 then 0xA0 ≤ c1 && c1 ≤ 0xBF
            else if b = 0xED then 0x80 ≤ c1 && c1 ≤ 0x9F
            else 0x80 ≤ c1 && c1 ≤ 0xBF) && (0x80 ≤ c2 && c2 ≤ 0xBF) then
          ((b - 0xE0) * 0x1000 + (c1 - 0x80) * 0x40 + (c2 - 0x80)) :: utf8Go fuel rest2
        else utf8Go fuel rest
      | _ => utf8Go fuel rest
    else if 0xF0 ≤ b && b ≤ 0xF4 then
      match rest with
      | c1 :: c2 :: c3 :: rest3 =>
        if (if b = 0xF0 then 0x90 ≤ c1 && c1 ≤ 0xBF
            else if b = 0xF4 then 0x80 ≤ c1 && c1 ≤ 0x8F
            else 0x80 ≤ c1 && c1 ≤ 0xBF)
            && (0x80 ≤ c2 && c2 ≤ 0xBF) && (0x80 ≤ c3 && c3 ≤ 0xBF) then
          ((b - 0xF0) * 0x40000 + (c1 - 0x80) * 0x1000 + (c2 - 0x80) * 0x40 + (c3 - 0x80))
            :: utf8Go fuel rest3
        else utf8Go fuel rest
      | _ => utf8Go fuel rest
    else utf8Go fuel rest

/-- `bytes(l).decode('utf-8', errors='ignore')` as code points. -/
def decodeUtf8Ignore (l : List Nat) : PyStr := utf8Go l.length l

/-- Code point of the uppercase hexadecimal digit for `n < 16`. -/
def hexDigit (n : Nat) : Nat := if n < 10 then 48 + n else 55 + n

/-- Python `f"{b:02X}"` for a byte value `b < 256`. -/
def hex2 (b : Nat) : PyStr := [hexDigit (b / 16 % 16), hexDigit (b % 16)]

/-- Python `f"[{b:02X}]"` for a byte value. -/
def bracketHex (b : Nat) : PyStr := 91 :: hex2 b ++ [93]

/-- Python `''.join(f'{b:02X}' for b in p)`. -/
def hexJoin (p : List Nat) : PyStr := (p.map hex2).flatten

/-! ## Frame codec (`_read_tag_data` frame construction,
`_parse_data_exchange_response`) -/

/-- The command-frame builder, from `_read_tag_data` lines 167-176 of
`nfc_reader_ha_events.py`:
frame = `00 00 FF LEN LCS [payload] DCS 00` with
`LCS = (256 - LEN) & 0xFF` and `DCS = (256 - sum(payload)) & 0xFF`. -/
def build_frame (data_payload : List Nat) : List Nat :=
  let data_len := data_payload.length
  let lcs := ((256 - (data_len : Int)) % 256).toNat
  let dcs := ((256 - (data_payload.sum : Int)) % 256).toNat
  [0x00, 0x00, 0xFF, data_len, lcs] ++ data_payload ++ [dcs, 0x00]

/-- The scan loop of `_parse_data_exchange_response`, generalised over the
two response-type bytes (the source hard-codes `0xD5 0x41`): at each
index `i` it requires the start marker `00 00 FF`, the response-type
bytes at offsets 5 and 6, a zero status byte at offset 7, and enough
buffer for the declared frame length; any mismatch moves the scan to
`i + 1`.  The declared data length is `frame_len - 3` as a Python (signed)
integer, and the returned slice is `data[i+8 : i+8+data_len]`. -/
def scanERP (data : List Nat) (t1 t2 : Nat) : Nat → Nat → Option (List Nat)
  | _, 0 => none
  | i, fuel + 1 =>
    if data.get? i = some 0x00 ∧ data.get? (i + 1) = some 0x00 ∧
        data.get? (i + 2) = some 0xFF ∧ i + 7 < data.length ∧
        data.get? (i + 5) = some t1 ∧ data.get? (i + 6) = some t2 then
      if data.get? (i + 7) = some 0x00 then
        if (i : Int) + 8 + ((((data.get? (i + 3)).getD 0 : Nat) : Int) - 3) ≤
            (data.length : Int) then
          some ((data.drop (i + 8)).take ((((data.get? (i + 3)).getD 0 : Nat) : Int) - 3).toNat)
        else scanERP data t1 t2 (i + 1) fuel
      else scanERP data t1 t2 (i + 1) fuel
    else scanERP data t1 t2 (i + 1) fuel

/-- `extract_response_payload` (spec name): the response-frame scanner of
`_parse_data_exchange_response`, with the Python loop bound
`for i in range(len(data) - 8)`. -/
def extract_response_payload (data : List Nat) (t1 t2 : Nat) : Option (List Nat) :=
  scanERP data t1 t2 0 (data.length - 8)

/-- `_parse_data_exchange_response`: the source instantiation with the
InDataExchange response bytes `D5 41`. -/
def parse_data_exchange_response (data : List Nat) : Option (List Nat) :=
  extract_response_payload data 0xD5 0x41

/-! ## Value extraction (`_extract_tag_value`) -/

/-- The 36-entry URI prefix table of `_extract_tag_value`. -/
def uriPrefixes (uri_id : Nat) : Option PyStr :=
  match uri_id with
  | 0x00 => some (sList "")
  | 0x01 => some (sList "http://www.")
  | 0x02 => some (sList "https://www.")
  | 0x03 => some (sList "http://")
  | 0x04 => some (sList "https://")
  | 0x05 => some (sList "tel:")
  | 0x06 => some (sList "mailto:")
  | 0x07 => some (sList "ftp://anonymous:anonymous@")
  | 0x08 => some (sList "ftp://ftp.")
  | 0x09 => some (sList "ftps://")
  | 0x0A => some (sList "sftp://")
  | 0x0B => some (sList "smb://")
  | 0x0C => some (sList "nfs://")
  | 0x0D => some (sList "ftp://")
  | 0x0E => some (sList "dav://")
  | 0x0F => some (sList "news:")
  | 0x10 => some (sList "telnet://")
  | 0x11 => some (sList "imap:")
  | 0x12 => some (sList "rtsp://")
  | 0x13 => some (sList "urn:")
  | 0x14 => some (sList "pop:")
  | 0x15 => some (sList "sip:")
  | 0x16 => some (sList "sips:")
  | 0x17 => some (sList "tftp:")
  | 0x18 => some (sList "btspp://")
  | 0x19 => some (sList "btl2cap://")
  | 0x1A => some (sList "btgoep://")
  | 0x1B => some (sList "tcpobex://")
  | 0x1C => some (sList "irdaobex://")
  | 0x1D => some (sList "file://")
  | 0x1E => some (sList "urn:epc:id:")
  | 0x1F => some (sList "urn:epc:tag:")
  | 0x20 => some (sList "urn:epc:pat:")
  | 0x21 => some (sList "urn:epc:raw:")
  | 0x22 => some (sList "urn:epc:")
  | 0x23 => some (sList "urn:nfc:")
  | _ => none

/-- The separator `'/tag/'` used by `_extract_tag_value`. -/
def tagSep : PyStr := sList "/tag/"

/-- The fallback tail of `_extract_tag_value` (lines 444-453): decode the
whole payload with errors ignored; if its strip is non-empty return the
text, otherwise return the uppercase-hex rendering.  (The surrounding
`try/except` never fires on byte inputs, so the function is total.) -/
def extractFallback (p : List Nat) : Option PyStr :=
  let t := decodeUtf8Ignore p
  if pyStrip t ≠ [] then some t else some (hexJoin p)

/-- `_extract_tag_value record_type payload` of `nfc_reader_ha_events.py`
(lines 376-457).  URI records (`type` head `0x55`): prefix-table
expansion of the first payload byte plus UTF-8 decoding of the rest;
if the decoded suffix contains `'/tag/'` return the piece after the last
such separator (`uri_suffix.split('/tag/')[-1]`), else prefix + suffix.
Text records (`type` head `0x54`): strip a language code of length
`payload[0] & 0x3F` plus one; decode the rest.  All other shapes fall
through to `extractFallback`. -/
def extract_tag_value (record_type payload : List Nat) : Option PyStr :=
  if record_type ≠ [] ∧ record_type.headD 0 = 0x55 then
    if payload ≠ [] then
      let uri_id := payload.headD 0
      let prefixStr := (uriPrefixes uri_id).getD (bracketHex uri_id)
      let uri_suffix := decodeUtf8Ignore (payload.drop 1)
      if containsSub tagSep uri_suffix then
        some ((pySplit tagSep uri_suffix).getLastD [])
      else
        some (prefixStr ++ uri_suffix)
    else extractFallback payload
  else if record_type ≠ [] ∧ record_type.headD 0 = 0x54 then
    if payload ≠ [] ∧ (payload.headD 0).land 0x3F + 1 < payload.length then
      some (decodeUtf8Ignore (payload.drop ((payload.headD 0).land 0x3F + 1)))
    else extractFallback payload
  else extractFallback payload

/-! ## NDEF record parsing (`_parse_first_ndef_record`,
`_parse_ndef_record_1_validated`) -/

/-- The final acceptance gate of `_parse_first_ndef_record` (line 365):
`if tag_value and len(tag_value.strip()) >= 8: return tag_value else None`. -/
def tag_value_gate : Option PyStr → Option PyStr
  | some s => if s ≠ [] ∧ 8 ≤ (pyStrip s).length then some s else none
  | none => none

/-- `_parse_first_ndef_record` (lines 302-374): header flag decoding
(short-record bit `0x10`, id-present bit `0x08`), 1-byte type length,
1- or 4-byte payload length, optional 1-byte id length, the
`type_len + id_len + payload_len` bound check, the type/id/payload
slicing, and the 8-character gate on the extracted value. -/
def parse_first_ndef_record (msg : List Nat) : Option PyStr :=
  if msg.length < 3 then none
  else
    let header := msg.headD 0
    let sr := header.land 0x10 ≠ 0
    let il := header.land 0x08 ≠ 0
    let type_len := msg.getD 1 0
    let plStep : Option (Nat × Nat) :=
      if sr then
        if msg.length ≤ 2 then none else some (msg.getD 2 0, 3)
      else
        if msg.length ≤ 2 + 3 then none
        else some (((msg.getD 2 0) <<< 24) ||| ((msg.getD 3 0) <<< 16) |||
                   ((msg.getD 4 0) <<< 8) ||| msg.getD 5 0, 6)
    match plStep with
    | none => none
    | some (payload_len, i1) =>
      let idStep : Option (Nat × Nat) :=
        if il then
          if msg.length ≤ i1 then none else some (msg.getD i1 0, i1 + 1)
        else some (0, i1)
      match idStep with
      | none => none
      | some (id_len, i2) =>
        if msg.length < i2 + (type_len + id_len + payload_len) then none
        else
          let record_type := (msg.drop i2).take type_len
          let i3 := i2 + type_len + (if il then id_len else 0)
          let payload := (msg.drop i3).take payload_len
          tag_value_gate (extract_tag_value record_type payload)

/-- The scan loop of `_parse_ndef_record_1_validated` (lines 260-294):
advance byte-at-a-time until a `0x03` NDEF-message TLV tag; read a
length byte; when the remaining image is shorter than the declared
length, accept a best-effort tail only when it is strictly longer than
80% of the declared length (`len - i > msg_len * 0.8`, an exact integer
comparison for byte-sized lengths) and strictly longer than 10 bytes,
and only when its parse yields a truthy result; otherwise the scan
returns nothing without looking further. -/
def ndefScan : List Nat → Option PyStr
  | [] => none
  | b :: rest =>
    if b = 0x03 then
      match rest with
      | [] => none
      | mlen :: rest2 =>
        if rest2.length < mlen then
          if 4 * mlen < 5 * rest2.length ∧ 10 < rest2.length then
            match parse_first_ndef_record rest2 with
            | some r => if r ≠ [] then some r else none
            | none => none
          else none
        else parse_first_ndef_record (rest2.take mlen)
    else ndefScan rest

/-- `_parse_ndef_record_1_validated` (lines 254-300). -/
def parse_ndef_record_1_validated (ndef_data : List Nat) : Option PyStr :=
  if ndef_data.length < 3 then none else ndefScan ndef_data

/-! ## Device-trace model of the block-read layer

`_read_tag_data` performs one serial exchange and returns either a parsed
payload or `None`; everything above it is deterministic in those results.
A `Dev` trace lists the successive results of the exchanges, consumed one
per call, which lets the retry and early-stop control flow of
`_read_tag_data_bulk` and `_read_ndef_record_1` be stated exactly. -/

/-- A trace of `_read_tag_data` results. -/
abbrev Dev := List (Option (List Nat))

/-- One `_read_tag_data` call: consume the next trace element.  An
exhausted trace keeps answering `None`. -/
def devRead : Dev → Option (List Nat) × Dev
  | [] => (none, [])
  | r :: rest => (r, rest)

/-- Python truthiness of a `_read_tag_data` result: `None` and the empty
list are both falsy. -/
def pyTruthy : Option (List Nat) → Bool
  | some (_ :: _) => true
  | _ => false

/-- The `for retry in range(max_retries)` loop of `_read_tag_data_bulk`
with `max_retries = 2`: one read, and on a falsy result one more. -/
def readChunk (dev : Dev) : Option (List Nat) × Dev :=
  let (r1, dev1) := devRead dev
  if pyTruthy r1 then (r1, dev1) else devRead dev1

/-- The chunk loop of `_read_tag_data_bulk` (lines 226-248): walk the
chunk start blocks; append each truthy chunk to the accumulator; on a
chunk that stays falsy after the retry, break (returning the data so
far) only when `block_start > start_block + 16` and more than 50 bytes
are accumulated, otherwise return `None`.  After the loop, return the
accumulator if non-empty, else `None`. -/
def bulkGo (start_block : Nat) : Dev → List Nat → List Nat → Option (List Nat) × Dev
  | dev, [], acc => (if acc.isEmpty then none else some acc, dev)
  | dev, bs :: restStarts, acc =>
    let (bd, dev') := readChunk dev
    if pyTruthy bd then
      bulkGo start_block dev' restStarts (acc ++ bd.getD [])
    else if start_block + 16 < bs ∧ 50 < acc.length then
      (if acc.isEmpty then none else some acc, dev')
    else (none, dev')

/-- `_read_tag_data_bulk target_id start_block num_blocks` over a device
trace.  The chunk starts are `range(start_block, start_block + num_blocks,
blocks_per_read)` with `blocks_per_read = 4`. -/
def read_tag_data_bulk (dev : Dev) (start_block num_blocks : Nat) :
    Option (List Nat) × Dev :=
  bulkGo start_block dev (List.range' start_block ((num_blocks + 3) / 4) 4) []

/-- `_read_ndef_record_1` (lines 134-155) over a device trace: one
un-retried capability-container read (block 3) whose result is tested
only for truthiness; on a truthy result, the bulk read of blocks 4-47
(`_read_tag_data_bulk(target_id, 4, 44)`), a minimum-length check
(`len < 4` fails), then `_parse_ndef_record_1_validated`. -/
def read_ndef_record_1 (dev : Dev) : Option PyStr × Dev :=
  let (cc_data, dev1) := devRead dev
  if pyTruthy cc_data then
    let (ndef_data, dev2) := read_tag_data_bulk dev1 4 44
    match ndef_data with
    | some img =>
      if img.length < 4 then (none, dev2)
      else (parse_ndef_record_1_validated img, dev2)
    | none => (none, dev2)
  else (none, dev1)

/-! ## Presence tracking (`start_monitoring`, `monitor_loop`) -/

/-- An observable presence transition. -/
inductive PresenceEvent where
  | entered (uid : String)
  | left
  deriving DecidableEq, Repr

/-- One iteration of the monitoring loop, as a pure transition on the
stored UID (`last_uid`): a scanned card with a UID different from the
stored one emits `entered` and stores the UID; the same UID emits
nothing; no card with a stored UID emits `left` and clears it. -/
def presence_step (last : Option String) (scan : Option String) :
    Option String × List PresenceEvent :=
  match scan with
  | some u => if last ≠ some u then (some u, [.entered u]) else (last, [])
  | none =>
    match last with
    | some _ => (none, [.left])
    | none => (none, [])

/-- Run the monitoring loop over a list of scan results, collecting the
emitted events in order. -/
def presence_run (last : Option String) : List (Option String) →
    Option String × List PresenceEvent
  | [] => (last, [])
  | s :: rest =>
    let (l1, evs) := presence_step last s
    let (lf, evs2) := presence_run l1 rest
    (lf, evs ++ evs2)

/-- One iteration of the monitoring loop, recording whether the event
collaborator is called (`fire_tag_scanned_event` is invoked exactly on an
`entered` transition).  The stored UID is updated to the scanned UID
without consulting the delivery call's return value, exactly as in
`start_monitoring` (line 727) and `monitor_loop` (line 134), so the
transition does not depend on delivery success. -/
def monitor_step (last : Option String) (scan : Option String) :
    Option String × Bool :=
  match scan with
  | some u => if last ≠ some u then (some u, true) else (last, false)
  | none => (none, false)

/-- Run the monitoring loop over a list of scan results, counting the
delivery attempts made. -/
def monitor_run (last : Option String) : List (Option String) →
    Option String × Nat
  | [] => (last, 0)
  | s :: rest =>
    let (l1, a) := monitor_step last s
    let (lf, n) := monitor_run l1 rest
    (lf, (if a then 1 else 0) + n)

/-- The tag-id selection of `fire_tag_scanned_event` (lines 652-672):
in `uuid` mode the UID is always delivered; otherwise a delivery is
attempted exactly when the card carries a truthy `tag_value`.  Returns
the delivered tag id, or `none` when no delivery attempt is made. -/
def fire_tag_decision (payload_type : PyStr) (uid : PyStr)
    (tag_value : Option PyStr) : Option PyStr :=
  if payload_type = sList "uuid" then some uid
  else
    match tag_value with
    | some v => if v ≠ [] then some v else none
    | none => none

/-! ## Shared helper lemmas -/

/-- `dropWhile` never lengthens a list. -/
lemma dropWhile_length_le (p : Nat → Bool) : ∀ s : List Nat, (s.dropWhile p).length ≤ s.length
  | [] => le_refl 0
  | c :: rest => by
    rw [List.dropWhile]
    cases p c with
    | true => exact le_trans (dropWhile_length_le p rest) (Nat.le_succ _)
    | false => exact le_refl _

/-- Stripping never lengthens a Python string. -/
lemma pyStrip_length_le (s : PyStr) : (pyStrip s).length ≤ s.length := by
  unfold pyStrip
  calc (((s.dropWhile pySpace).reverse.dropWhile pySpace).reverse).length
      = ((s.dropWhile pySpace).reverse.dropWhile pySpace).length := List.length_reverse _
    _ ≤ (s.dropWhile pySpace).reverse.length := dropWhile_length_le _ _
    _ = (s.dropWhile pySpace).length := List.length_reverse _
    _ ≤ s.length := dropWhile_length_le _ _

/-- The element just after a prefix of known length. -/
lemma getD_after (l1 l2 : List Nat) (a : Nat) : (l1 ++ a :: l2).getD l1.length 0 = a := by
  induction l1 with
  | nil => rfl
  | cons b bs ih => simpa using ih

/-- Unfolding equation of the response scan at positive fuel. -/
lemma scanERP_succ (data : List Nat) (t1 t2 i fuel : Nat) :
    scanERP data t1 t2 i (fuel + 1) =
      if data.get? i = some 0x00 ∧ data.get? (i + 1) = some 0x00 ∧
          data.get? (i + 2) = some 0xFF ∧ i + 7 < data.length ∧
          data.get? (i + 5) = some t1 ∧ data.get? (i + 6) = some t2 then
        if data.get? (i + 7) = some 0x00 then
          if (i : Int) + 8 + ((((data.get? (i + 3)).getD 0 : Nat) : Int) - 3) ≤
              (data.length : Int) then
            some ((data.drop (i + 8)).take ((((data.get? (i + 3)).getD 0 : Nat) : Int) - 3).toNat)
          else scanERP data t1 t2 (i + 1) fuel
        else scanERP data t1 t2 (i + 1) fuel
      else scanERP data t1 t2 (i + 1) fuel := rfl

/-! ## Claim theorems -/

/-- C3: from the initial `PresenceState` (no stored UID), the scan
sequence `[none, UID A, UID A, none, UID B]` yields exactly the events
`[entered A, left, entered B]`, and a scan whose UID equals the stored
UID never produces an event. -/
theorem C3_presence_sequence :
    presence_run none [none, some "04A1B2C3", some "04A1B2C3", none, some "11223344"]
      = (some "11223344",
         [PresenceEvent.entered "04A1B2C3", PresenceEvent.left,
          PresenceEvent.entered "11223344"])
    ∧ ∀ u : String, presence_step (some u) (some u) = (some u, []) := by
  constructor
  · rfl
  · intro u
    simp [presence_step]

/-- C6: for URI records (type byte `0x55`), prefix code `0x04` with
suffix `"example.com/tag/42"` extracts `"42"`, prefix code `0x03` with
suffix `"foo.org"` extracts `"http://foo.org"`; and in general, when the
decoded suffix contains `"/tag/"` only the part after the last such
segment is returned, otherwise the prefix-table expansion concatenated
with the decoded suffix. -/
theorem C6_uri_extraction :
    extract_tag_value [0x55] (0x04 :: sList "example.com/tag/42") = some (sList "42")
    ∧ extract_tag_value [0x55] (0x03 :: sList "foo.org") = some (sList "http://foo.org")
    ∧ ∀ (rt p : List Nat), rt ≠ [] → rt.headD 0 = 0x55 → p ≠ [] →
        extract_tag_value rt p =
          some (if containsSub tagSep (decodeUtf8Ignore (p.drop 1))
                then (pySplit tagSep (decodeUtf8Ignore (p.drop 1))).getLastD []
                else ((uriPrefixes (p.headD 0)).getD (bracketHex (p.headD 0)))
                       ++ decodeUtf8Ignore (p.drop 1)) := by
  refine ⟨by decide, by decide, ?_⟩
  intro rt p hrt hhead hp
  unfold extract_tag_value
  rw [if_pos (⟨hrt, hhead⟩ : rt ≠ [] ∧ rt.headD 0 = 0x55), if_pos hp]
  cases hcs : containsSub tagSep (decodeUtf8Ignore p.tail) <;> simp [List.drop_one, hcs]

/-- C6 instantiated at a fresh concrete input (prefix code `0x05`,
suffix `"5551234567"`, no `/tag/` segment). -/
theorem C6_uri_extraction_witness :
    extract_tag_value [0x55] (0x05 :: sList "5551234567") = some (sList "tel:5551234567") := by
  have h := C6_uri_extraction.2.2 [0x55] (0x05 :: sList "5551234567")
    (by decide) (by decide) (by decide)
  simpa using h

/-- C8: the caller-side gate accepts an extracted value exactly when its
trimmed length is at least 8; the two-character value `"ab"` is
extracted successfully from a text record but discarded by the gate, and
a card without a stored tag value triggers no delivery attempt in
`ndef` mode. -/
theorem C8_min_length_gate :
    (∀ s : PyStr, tag_value_gate (some s) = some s ↔ 8 ≤ (pyStrip s).length)
    ∧ extract_tag_value [0x54] [0x00, 0x61, 0x62] = some (sList "ab")
    ∧ parse_first_ndef_record [0xD1, 0x01, 0x03, 0x54, 0x00, 0x61, 0x62] = none
    ∧ ∀ uid : PyStr, fire_tag_decision (sList "ndef") uid none = none := by
  refine ⟨?_, by decide, by decide, ?_⟩
  · intro s
    simp only [tag_value_gate]
    constructor
    · intro h
      by_cases hc : s ≠ [] ∧ 8 ≤ (pyStrip s).length
      · exact hc.2
      · rw [if_neg hc] at h
        exact absurd h (by simp)
    · intro h8
      have hne : s ≠ [] := by
        intro he
        rw [he] at h8
        have : (pyStrip ([] : PyStr)).length ≤ 0 := pyStrip_length_le []
        omega
      rw [if_pos ⟨hne, h8⟩]
  · intro uid
    unfold fire_tag_decision
    rw [if_neg (by decide : ¬ (sList "ndef" = sList "uuid"))]

/-- C8 gate applied at a concrete accepted value. -/
theorem C8_min_length_gate_witness :
    tag_value_gate (some (sList "ABCDEFGH")) = some (sList "ABCDEFGH") :=
  ((C8_min_length_gate.1 (sList "ABCDEFGH")).mpr (by decide))

/-- C10: `_read_ndef_record_1` consumes exactly one un-retried read for
the capability container; a falsy first result (a failed or empty read)
yields nothing with the bulk read never attempted (the trace after the
call is exactly the remaining trace), and the CC bytes are never
inspected beyond truthiness (any two non-empty CC payloads give
identical results). -/
theorem C10_cc_gate :
    (∀ rest : Dev, read_ndef_record_1 (none :: rest) = (none, rest))
    ∧ (∀ rest : Dev, read_ndef_record_1 (some [] :: rest) = (none, rest))
    ∧ ∀ (xs ys : List Nat) (rest : Dev), xs ≠ [] → ys ≠ [] →
        read_ndef_record_1 (some xs :: rest) = read_ndef_record_1 (some ys :: rest) := by
  refine ⟨fun rest => rfl, fun rest => rfl, ?_⟩
  intro xs ys rest hxs hys
  cases xs with
  | nil => exact absurd rfl hxs
  | cons a as =>
    cases ys with
    | nil => exact absurd rfl hys
    | cons b bs => rfl

/-- C10 applied to two different non-empty capability-container
payloads on the empty remaining trace. -/
theorem C10_cc_gate_witness :
    read_ndef_record_1 [some [0xE1, 0x10, 0x12, 0x00]] = read_ndef_record_1 [some [0x00]] :=
  C10_cc_gate.2.2 [0xE1, 0x10, 0x12, 0x00] [0x00] [] (by decide) (by decide)

/-- With the stored UID already `u`, a run of scans all returning `u`
makes no delivery attempt and leaves the state unchanged. -/
lemma monitor_run_same (u : String) : ∀ scans : List (Option String),
    (∀ x ∈ scans, x = some u) → monitor_run (some u) scans = (some u, 0)
  | [], _ => rfl
  | s :: rest, h => by
    have hs : s = some u := h s (by simp)
    subst hs
    have ih := monitor_run_same u rest (fun x hx => h x (by simp [hx]))
    simp [monitor_run, monitor_step, ih]

/-- C9: an `entered` transition for `u` followed by any number of scans
still returning `u` calls the event collaborator exactly once (zero
times when `u` was already stored), independently of whether that
delivery succeeded: the stored UID is set to `u` by the transition
itself, so later identical scans never re-attempt delivery. -/
theorem C9_single_delivery_per_entry (u : String) (last0 : Option String)
    (scans : List (Option String)) (h : ∀ x ∈ scans, x = some u) :
    monitor_run last0 (some u :: scans) = (some u, if last0 = some u then 0 else 1) := by
  by_cases hl : last0 = some u
  · subst hl
    simp [monitor_run, monitor_step, monitor_run_same u scans h]
  · simp [monitor_run, monitor_step, hl, monitor_run_same u scans h]

/-- C9 at a concrete run: one entry, two repeat scans, one attempt. -/
theorem C9_single_delivery_per_entry_witness :
    monitor_run none [some "A1B2C3D4", some "A1B2C3D4", some "A1B2C3D4"]
      = (some "A1B2C3D4", 1) := by
  have h := C9_single_delivery_per_entry "A1B2C3D4" none
    [some "A1B2C3D4", some "A1B2C3D4"] (by decide)
  simpa using h

/-- Feeding `bulkGo` a run of non-empty chunk payloads consumes one
trace element and one chunk start per chunk and accumulates their
concatenation. -/
lemma bulkGo_feed (start_block : Nat) : ∀ (chunks : List (List Nat)) (dev' : Dev)
    (acc : List Nat) (s m : Nat), (∀ c ∈ chunks, c ≠ []) → chunks.length < m →
    bulkGo start_block (chunks.map some ++ dev') (List.range' s m 4) acc
      = bulkGo start_block dev' (List.range' (s + 4 * chunks.length) (m - chunks.length) 4)
          (acc ++ chunks.flatten)
  | [], dev', acc, s, m, _, _ => by simp
  | c :: cs, dev', acc, s, m, h, hm => by
    obtain ⟨m', rfl⟩ : ∃ m', m = m' + 1 := ⟨m - 1, by omega⟩
    obtain ⟨a, as, rfl⟩ : ∃ a as, c = a :: as := by
      cases hc : c with
      | nil => exact absurd hc (h c (by simp))
      | cons a as => exact ⟨a, as, rfl⟩
    rw [List.range'_succ]
    have step : bulkGo start_block (((a :: as) :: cs).map some ++ dev')
        (s :: List.range' (s + 4) m' 4) acc
        = bulkGo start_block (cs.map some ++ dev') (List.range' (s + 4) m' 4)
            (acc ++ (a :: as)) := by
      simp [bulkGo, readChunk, devRead, pyTruthy]
    rw [step, bulkGo_feed start_block cs dev' (acc ++ (a :: as)) (s + 4) m'
      (fun x hx => h x (by simp [hx])) (by simp at hm; omega)]
    have e1 : s + 4 * ((a :: as) :: cs).length = s + 4 + 4 * cs.length := by
      simp only [List.length_cons]
      ring
    have e2 : m' + 1 - ((a :: as) :: cs).length = m' - cs.length := by
      simp only [List.length_cons]
      omega
    rw [e1, e2, List.flatten_cons, ← List.append_assoc]

/-- C1 (amended): when a chunk read stays falsy after its retry while
all earlier chunks succeeded, `_read_tag_data_bulk` returns the partial
image exactly when the failing chunk's start block is more than 16
*blocks* past `start_block` (the code compares block numbers, not
bytes) and strictly more than 50 bytes were collected; in every other
case — including a failing first chunk — it returns nothing. -/
theorem C1_block_threshold (start_block num_blocks : Nat) (chunks : List (List Nat))
    (rest : Dev) (h1 : ∀ c ∈ chunks, c ≠ []) (h2 : chunks.length < (num_blocks + 3) / 4) :
    (read_tag_data_bulk (chunks.map some ++ ([none, none] ++ rest)) start_block num_blocks).1
      = if 16 < 4 * chunks.length ∧ 50 < chunks.flatten.length
        then some chunks.flatten else none := by
  rw [read_tag_data_bulk,
    bulkGo_feed start_block chunks ([none, none] ++ rest) [] start_block
      ((num_blocks + 3) / 4) h1 h2]
  obtain ⟨d, hd⟩ : ∃ d, (num_blocks + 3) / 4 - chunks.length = d + 1 :=
    ⟨(num_blocks + 3) / 4 - chunks.length - 1, by omega⟩
  rw [hd, List.range'_succ]
  have hrc : readChunk ([none, none] ++ rest) = (none, rest) := rfl
  simp only [bulkGo, hrc, pyTruthy, List.nil_append]
  by_cases hA : 16 < 4 * chunks.length ∧ 50 < chunks.flatten.length
  · have hA' : start_block + 16 < start_block + 4 * chunks.length ∧
        50 < chunks.flatten.length := ⟨by omega, hA.2⟩
    rw [if_pos hA', if_pos hA]
    have hne : ¬ chunks.flatten.isEmpty = true := by
      rw [List.isEmpty_iff]
      intro he
      rw [he] at hA
      simp at hA
    simp [hne]
  · have hA' : ¬ (start_block + 16 < start_block + 4 * chunks.length ∧
        50 < chunks.flatten.length) := fun hcon => hA ⟨by omega, hcon.2⟩
    rw [if_neg hA', if_neg hA]
    simp

/-- C1 applied concretely: six 16-byte chunks succeed (96 bytes), the
seventh chunk (start block 28, more than 16 blocks past 4) fails after
its retry, and the partial 96-byte image is returned. -/
theorem C1_block_threshold_witness :
    (read_tag_data_bulk ((List.replicate 6 (List.replicate 16 7)).map some
        ++ ([none, none] ++ [])) 4 44).1
      = some (List.replicate 6 (List.replicate 16 7)).flatten := by
  rw [C1_block_threshold 4 44 (List.replicate 6 (List.replicate 16 7)) []
    (by decide) (by decide)]
  decide

/-- C1 counterexample to the claim as stated: the first two 16-byte
chunks succeed (32 bytes collected), the third chunk — bytes 32-47 of
the image, start block 12 — fails after its retry.  The claim predicts
the partial 32-byte image; the code returns nothing, because the
early-stop test compares block numbers (`12 > 4 + 16` is false) and
demands more than 50 collected bytes (`32 > 50` is false). -/
theorem C1_counterexample :
    (read_tag_data_bulk [some (List.replicate 16 1), some (List.replicate 16 2),
        none, none] 4 44).1 = none
    ∧ (List.replicate 16 1 ++ List.replicate 16 2 : List Nat).length = 32 := by
  constructor
  · rfl
  · decide

/-- C2 counterexample to the claim as stated: a buffer whose
length-checksum byte (index 4, here `0x00` instead of `0xFC`) and
payload-checksum byte (index 9, here `0x00` instead of `0x3F`) are both
wrong still yields the payload `[0xAB]` — response parsing checks
neither checksum equation. -/
theorem C2_counterexample :
    parse_data_exchange_response
        [0x00, 0x00, 0xFF, 0x04, 0x00, 0xD5, 0x41, 0x00, 0xAB, 0x00, 0x00] = some [0xAB]
    ∧ (0x00 : Nat) ≠ (((256 - (0x04 : Int)) % 256).toNat)
    ∧ (0x00 : Nat) ≠ (((256 - ((0xD5 + 0x41 + 0x00 + 0xAB : Nat) : Int)) % 256).toNat) := by
  refine ⟨rfl, by decide, by decide⟩

/-- C2 (amended): the builder always emits frames satisfying both
checksum equations — the length-checksum byte at index 4 equals
`(256 - length) mod 256` and the payload-checksum byte just after the
payload equals `(256 - sum(payload)) mod 256`; response parsing, on the
other hand, validates neither checksum byte: a well-shaped buffer is
accepted whatever bytes stand at the two checksum positions. -/
theorem C2_checksum_policy :
    (∀ p : List Nat,
      (build_frame p).getD 4 0 = ((256 - (p.length : Int)) % 256).toNat
      ∧ (build_frame p).getD (5 + p.length) 0 = ((256 - (p.sum : Int)) % 256).toNat)
    ∧ ∀ x y : Nat, parse_data_exchange_response
        [0x00, 0x00, 0xFF, 0x04, x, 0xD5, 0x41, 0x00, 0xAB, y, 0x00] = some [0xAB] := by
  constructor
  · intro p
    constructor
    · simp [build_frame]
    · have h := getD_after ([0x00, 0x00, 0xFF, p.length,
        ((256 - (p.length : Int)) % 256).toNat] ++ p) [0x00]
        (((256 - (p.sum : Int)) % 256).toNat)
      simp only [List.length_append, List.length_cons, List.length_nil] at h
      unfold build_frame
      rw [List.append_assoc] at h
      convert h using 2
  · intro x y
    rfl

/-- C7 counterexample to the claim as stated: the image declares a
20-byte NDEF message but only 16 bytes follow — exactly 80% of the
declared length.  Those 16 bytes parse on their own to the value
`"https://abcdefgh.io"`, so the claim predicts that value; the code
returns nothing because its leniency test is strict
(`16 > 20 * 0.8` fails). -/
theorem C7_counterexample :
    parse_ndef_record_1_validated
        ([0x03, 0x14, 0xD1, 0x01, 0x0C, 0x55, 0x04] ++ sList "abcdefgh.io") = none
    ∧ parse_first_ndef_record ([0xD1, 0x01, 0x0C, 0x55, 0x04] ++ sList "abcdefgh.io")
        = some (sList "https://abcdefgh.io")
    ∧ ([0xD1, 0x01, 0x0C, 0x55, 0x04] ++ sList "abcdefgh.io").length * 5 = 0x14 * 4 := by
  refine ⟨by decide, by decide, by decide⟩

/-- C7 (amended): once the scan of `_parse_ndef_record_1_validated` has
found the NDEF TLV tag and read the declared length: a full declared
length is sliced exactly; a short image is parsed best-effort from the
available tail only when the tail is strictly longer than 80% of the
declared length and strictly longer than 10 bytes and that parse yields
a truthy value; in every other short case the scan yields nothing. -/
theorem C7_leniency_thresholds :
    (∀ (mlen : Nat) (tail : List Nat), mlen ≤ tail.length → tail ≠ [] →
      parse_ndef_record_1_validated (0x03 :: mlen :: tail)
        = parse_first_ndef_record (tail.take mlen))
    ∧ (∀ (mlen : Nat) (tail : List Nat) (r : PyStr), tail.length < mlen →
      4 * mlen < 5 * tail.length → 10 < tail.length →
      parse_first_ndef_record tail = some r → r ≠ [] →
      parse_ndef_record_1_validated (0x03 :: mlen :: tail) = some r)
    ∧ ∀ (mlen : Nat) (tail : List Nat), tail.length < mlen →
      ¬(4 * mlen < 5 * tail.length ∧ 10 < tail.length) →
      parse_ndef_record_1_validated (0x03 :: mlen :: tail) = none := by
  refine ⟨?_, ?_, ?_⟩
  · intro mlen tail hle hne
    have hpos : 0 < tail.length := List.length_pos.mpr hne
    have hg : ¬ (0x03 :: mlen :: tail : List Nat).length < 3 := by
      simp only [List.length_cons]
      omega
    unfold parse_ndef_record_1_validated
    rw [if_neg hg]
    unfold ndefScan
    rw [if_pos rfl]
    simp only
    rw [if_neg (by omega : ¬ tail.length < mlen)]
  · intro mlen tail r hlt h80 h10 hp hr
    have hg : ¬ (0x03 :: mlen :: tail : List Nat).length < 3 := by
      simp only [List.length_cons]
      omega
    unfold parse_ndef_record_1_validated
    rw [if_neg hg]
    unfold ndefScan
    rw [if_pos rfl]
    simp only
    rw [if_pos hlt, if_pos ⟨h80, h10⟩, hp]
    simp [hr]
  · intro mlen tail hlt hno
    unfold parse_ndef_record_1_validated
    by_cases hg : (0x03 :: mlen :: tail : List Nat).length < 3
    · rw [if_pos hg]
    · rw [if_neg hg]
      unfold ndefScan
      rw [if_pos rfl]
      cases tail with
      | nil => simp at hg
      | cons t ts =>
        simp only
        rw [if_pos hlt, if_neg hno]

/-- C7 applied concretely: declared length 20, 17-byte tail (85% and
longer than 10 bytes) whose parse succeeds, so the best-effort value is
returned. -/
theorem C7_leniency_thresholds_witness :
    parse_ndef_record_1_validated
        ([0x03, 0x14, 0xD1, 0x01, 0x0D, 0x55, 0x04] ++ sList "abcdefgh.com")
      = some (sList "https://abcdefgh.com") := by
  have h := C7_leniency_thresholds.2.1 0x14
    ([0xD1, 0x01, 0x0D, 0x55, 0x04] ++ sList "abcdefgh.com")
    (sList "https://abcdefgh.com") (by decide) (by decide) (by decide)
    (by decide) (by decide)
  simpa using h

/-- C4 counterexample to the claim as stated: wrapping the response-type
pair `D5 41` and the payload `[0x00, 0x01, 0x02]` in a frame and
re-extracting returns `[0x01, 0x02]`, not the original payload — the
parser also strips and checks a status byte after the pair; and reading
the whole command as the payload fails likewise. -/
theorem C4_counterexample :
    extract_response_payload (build_frame ([0xD5, 0x41] ++ [0x00, 0x01, 0x02])) 0xD5 0x41
      = some [0x01, 0x02]
    ∧ ([0x01, 0x02] : List Nat) ≠ [0x00, 0x01, 0x02]
    ∧ extract_response_payload (build_frame [0xD5, 0x41, 0x00, 0x01, 0x02]) 0xD5 0x41
        ≠ some [0xD5, 0x41, 0x00, 0x01, 0x02] := by
  refine ⟨rfl, by decide, by decide⟩

/-- C4 (amended): the round-trip holds for the payload placed after the
response-type pair *and a zero status byte*: for any payload whose
command length fits in one byte, `build_frame (t1 :: t2 :: 0x00 :: p)`
extracted with the pair `(t1, t2)` returns exactly `p`. -/
theorem C4_roundtrip_after_status (t1 t2 : Nat) (p : List Nat)
    (h : p.length + 3 ≤ 255) :
    extract_response_payload (build_frame (t1 :: t2 :: 0x00 :: p)) t1 t2 = some p := by
  have hd : build_frame (t1 :: t2 :: 0x00 :: p)
      = 0x00 :: 0x00 :: 0xFF :: (t1 :: t2 :: 0x00 :: p).length ::
        ((256 - (((t1 :: t2 :: 0x00 :: p).length : Nat) : Int)) % 256).toNat ::
        t1 :: t2 :: 0x00 ::
        (p ++ [((256 - (((t1 :: t2 :: 0x00 :: p).sum : Nat) : Int)) % 256).toNat, 0x00]) := rfl
  rw [extract_response_payload, hd]
  have hlen : (0x00 :: 0x00 :: 0xFF :: (t1 :: t2 :: 0x00 :: p).length ::
      ((256 - (((t1 :: t2 :: 0x00 :: p).length : Nat) : Int)) % 256).toNat ::
      t1 :: t2 :: 0x00 ::
      (p ++ [((256 - (((t1 :: t2 :: 0x00 :: p).sum : Nat) : Int)) % 256).toNat, 0x00])).length
      = p.length + 10 := by
    simp
  rw [hlen]
  rw [show p.length + 10 - 8 = (p.length + 1) + 1 from by omega, scanERP_succ]
  rw [if_pos ?hc1]
  case hc1 =>
    refine ⟨rfl, rfl, rfl, ?_, ?_, ?_⟩
    · rw [hlen]
      omega
    · rfl
    · rfl
  rw [if_pos (by rfl)]
  rw [if_pos ?hb]
  case hb =>
    rw [hlen]
    simp only [List.get?_cons_succ, List.get?_cons_zero, Option.getD_some,
      List.length_cons, Nat.zero_add, Nat.cast_ofNat]
    push_cast
    omega
  have hdrop : ∀ q : List Nat,
      (0x00 :: 0x00 :: 0xFF :: (t1 :: t2 :: 0x00 :: p).length ::
        ((256 - (((t1 :: t2 :: 0x00 :: p).length : Nat) : Int)) % 256).toNat ::
        t1 :: t2 :: 0x00 :: q).drop (0 + 8) = q := fun q => rfl
  rw [hdrop]
  have htn : (((((0x00 :: 0x00 :: 0xFF :: (t1 :: t2 :: 0x00 :: p).length ::
      ((256 - (((t1 :: t2 :: 0x00 :: p).length : Nat) : Int)) % 256).toNat ::
      t1 :: t2 :: 0x00 ::
      (p ++ [((256 - (((t1 :: t2 :: 0x00 :: p).sum : Nat) : Int)) % 256).toNat,
        0x00])).get? (0 + 3)).getD 0 : Nat) : Int) - 3).toNat = p.length := by
    simp only [List.get?_cons_succ, List.get?_cons_zero, Option.getD_some, List.length_cons]
    push_cast
    omega
  rw [htn, List.take_left]

/-- C4 (amended) at a concrete payload. -/
theorem C4_roundtrip_after_status_witness :
    extract_response_payload (build_frame (0xD5 :: 0x41 :: 0x00 :: [0xAA, 0xBB, 0xCC]))
        0xD5 0x41 = some [0xAA, 0xBB, 0xCC] :=
  C4_roundtrip_after_status 0xD5 0x41 [0xAA, 0xBB, 0xCC] (by decide)

/-- C5 counterexample to the claim as stated: a 9-byte buffer whose
declared frame length 4 fills the buffer exactly (indices 5-8), leaving
no room for the trailing checksum byte, still yields the payload
`[0xAB]` — the parser's bound check does not require the checksum byte
to be present. -/
theorem C5_counterexample :
    parse_data_exchange_response
        [0x00, 0x00, 0xFF, 0x04, 0xFC, 0xD5, 0x41, 0x00, 0xAB] = some [0xAB]
    ∧ ([0x00, 0x00, 0xFF, 0x04, 0xFC, 0xD5, 0x41, 0x00, 0xAB] : List Nat).length = 9 := by
  refine ⟨rfl, rfl⟩

/-- Soundness of the response scan: whenever it yields a payload, some
index carries a full marker/response-type/status match and the buffer
holds at least the declared frame length (the trailing checksum byte is
not required), and the payload is the corresponding slice. -/
lemma scanERP_sound (data : List Nat) (t1 t2 : Nat) : ∀ (fuel i : Nat) (p : List Nat),
    scanERP data t1 t2 i fuel = some p →
    ∃ j, data.get? j = some 0x00 ∧ data.get? (j + 1) = some 0x00 ∧
      data.get? (j + 2) = some 0xFF ∧ data.get? (j + 5) = some t1 ∧
      data.get? (j + 6) = some t2 ∧ data.get? (j + 7) = some 0x00 ∧
      ∃ fl, data.get? (j + 3) = some fl ∧
        (j : Int) + 8 + ((fl : Int) - 3) ≤ (data.length : Int) ∧
        p = (data.drop (j + 8)).take ((fl : Int) - 3).toNat
  | 0, i, p, h => absurd h (by rw [show scanERP data t1 t2 i 0 = none from rfl]; simp)
  | fuel + 1, i, p, h => by
    rw [scanERP_succ] at h
    by_cases hc1 : data.get? i = some 0x00 ∧ data.get? (i + 1) = some 0x00 ∧
        data.get? (i + 2) = some 0xFF ∧ i + 7 < data.length ∧
        data.get? (i + 5) = some t1 ∧ data.get? (i + 6) = some t2
    · rw [if_pos hc1] at h
      by_cases hc2 : data.get? (i + 7) = some 0x00
      · rw [if_pos hc2] at h
        by_cases hc3 : (i : Int) + 8 + ((((data.get? (i + 3)).getD 0 : Nat) : Int) - 3) ≤
            (data.length : Int)
        · rw [if_pos hc3] at h
          obtain ⟨hm1, hm2, hm3, hlen, hm5, hm6⟩ := hc1
          have h3lt : i + 3 < data.length := by omega
          have hfl : data.get? (i + 3) = some (data.get ⟨i + 3, h3lt⟩) :=
            List.get?_eq_get h3lt
          refine ⟨i, hm1, hm2, hm3, hm5, hm6, hc2, data.get ⟨i + 3, h3lt⟩, hfl, ?_, ?_⟩
          · rw [hfl] at hc3
            simpa using hc3
          · rw [hfl] at h
            simp only [Option.getD_some] at h
            exact (Option.some_inj.mp h).symm
        · rw [if_neg hc3] at h
          exact scanERP_sound data t1 t2 fuel (i + 1) p h
      · rw [if_neg hc2] at h
        exact scanERP_sound data t1 t2 fuel (i + 1) p h
    · rw [if_neg hc1] at h
      exact scanERP_sound data t1 t2 fuel (i + 1) p h

/-- C5 (amended): `extract_response_payload` is a total function that
yields a payload only when the buffer contains the start marker, the
matching response-type bytes, a zero status byte, and the full declared
frame length — but not necessarily the trailing checksum byte; absence
of any of these makes it report absence rather than raising. -/
theorem C5_parse_requirements (data : List Nat) (t1 t2 : Nat) (p : List Nat)
    (h : extract_response_payload data t1 t2 = some p) :
    ∃ j, data.get? j = some 0x00 ∧ data.get? (j + 1) = some 0x00 ∧
      data.get? (j + 2) = some 0xFF ∧ data.get? (j + 5) = some t1 ∧
      data.get? (j + 6) = some t2 ∧ data.get? (j + 7) = some 0x00 ∧
      ∃ fl, data.get? (j + 3) = some fl ∧
        (j : Int) + 8 + ((fl : Int) - 3) ≤ (data.length : Int) ∧
        p = (data.drop (j + 8)).take ((fl : Int) - 3).toNat :=
  scanERP_sound data t1 t2 (data.length - 8) 0 p h

/-- C5 (amended) applied at a concrete accepted buffer. -/
theorem C5_parse_requirements_witness :
    ∃ j, ([0x00, 0x00, 0xFF, 0x04, 0xFC, 0xD5, 0x41, 0x00, 0xAB] : List Nat).get? j
        = some 0x00 ∧
      ([0x00, 0x00, 0xFF, 0x04, 0xFC, 0xD5, 0x41, 0x00, 0xAB] : List Nat).get? (j + 1)
        = some 0x00 ∧
      ([0x00, 0x00, 0xFF, 0x04, 0xFC, 0xD5, 0x41, 0x00, 0xAB] : List Nat).get? (j + 2)
        = some 0xFF ∧
      ([0x00, 0x00, 0xFF, 0x04, 0xFC, 0xD5, 0x41, 0x00, 0xAB] : List Nat).get? (j + 5)
        = some 0xD5 ∧
      ([0x00, 0x00, 0xFF, 0x04, 0xFC, 0xD5, 0x41, 0x00, 0xAB] : List Nat).get? (j + 6)
        = some 0x41 ∧
      ([0x00, 0x00, 0xFF, 0x04, 0xFC, 0xD5, 0x41, 0x00, 0xAB] : List Nat).get? (j + 7)
        = some 0x00 ∧
      ∃ fl, ([0x00, 0x00, 0xFF, 0x04, 0xFC, 0xD5, 0x41, 0x00, 0xAB] : List Nat).get? (j + 3)
          = some fl ∧
        (j : Int) + 8 + ((fl : Int) - 3)
          ≤ (([0x00, 0x00, 0xFF, 0x04, 0xFC, 0xD5, 0x41, 0x00, 0xAB] : List Nat).length : Int) ∧
        ([0xAB] : List Nat)
          = (([0x00, 0x00, 0xFF, 0x04, 0xFC, 0xD5, 0x41, 0x00, 0xAB] : List Nat).drop (j + 8)).take
              ((fl : Int) - 3).toNat :=
  C5_parse_requirements [0x00, 0x00, 0xFF, 0x04, 0xFC, 0xD5, 0x41, 0x00, 0xAB]
    0xD5 0x41 [0xAB] (by decide)
